import Mathlib

/-!
Verification of the DNS-record codec contract and the HelloConstruct
scaffolding of the aws-cdk fragment.  The codec (`DdbRecordEncoding` in
`records_table.py`) and its data model (`records.py`) are exercised by
`test/test_records.py`; the construct lives in
`init-templates/app/python/hello/hello_construct.py`.
-/

/-- Modelled from the spec: the in-memory timestamp value of `records.py`
(Python `datetime`), which is missing from the fragment.  Carries the
fields down to microsecond precision, as the spec's timestamp-fidelity
requirement demands. -/
structure Timestamp where
  year : Nat
  month : Nat
  day : Nat
  hour : Nat
  minute : Nat
  second : Nat
  microsecond : Nat
  deriving DecidableEq, Repr

/-- Zero-padded fixed-width decimal rendering of `n`, most significant
digit first; width `w`.  Mirrors the zero padding of Python `strftime`
directives. -/
def natToDigits : Nat → Nat → List Char
  | 0, _ => []
  | w + 1, n => Nat.digitChar (n / 10 ^ w) :: natToDigits w (n % 10 ^ w)

/-- Consume exactly `w` decimal digits from the front of the character
list, accumulating their value onto `acc`; fail on a non-digit or on
premature end of input. -/
def readDigits : Nat → Nat → List Char → Option (Nat × List Char)
  | 0, acc, cs => some (acc, cs)
  | w + 1, acc, c :: cs =>
      if c.isDigit then readDigits w (acc * 10 + (c.toNat - 48)) cs else none
  | _ + 1, _, [] => none

/-- Consume one expected literal character. -/
def expectChar (c : Char) : List Char → Option (List Char)
  | d :: cs => if d = c then some cs else none
  | [] => none

/-- Modelled from the spec: the store's native timestamp representation,
written by the missing `records_table.py` via Python
`strftime` format `%Y-%m-%dT%H:%M:%S.%f`. -/
def fmtTimestamp (t : Timestamp) : List Char :=
  natToDigits 4 t.year ++ ('-' :: (natToDigits 2 t.month ++ ('-' :: (natToDigits 2 t.day ++
  ('T' :: (natToDigits 2 t.hour ++ (':' :: (natToDigits 2 t.minute ++ (':' :: (natToDigits 2 t.second ++
  ('.' :: natToDigits 6 t.microsecond)))))))))))

/-- Modelled from the spec: parsing the store's native timestamp
representation into an in-memory timestamp with microsecond precision
(Python `strptime` with format `%Y-%m-%dT%H:%M:%S.%f`, missing from the
fragment). -/
def parseTimestamp (cs : List Char) : Option Timestamp :=
  match readDigits 4 0 cs with
  | none => none
  | some (y, cs) =>
    match expectChar '-' cs with
    | none => none
    | some cs =>
      match readDigits 2 0 cs with
      | none => none
      | some (mo, cs) =>
        match expectChar '-' cs with
        | none => none
        | some cs =>
          match readDigits 2 0 cs with
          | none => none
          | some (d, cs) =>
            match expectChar 'T' cs with
            | none => none
            | some cs =>
              match readDigits 2 0 cs with
              | none => none
              | some (h, cs) =>
                match expectChar ':' cs with
                | none => none
                | some cs =>
                  match readDigits 2 0 cs with
                  | none => none
                  | some (mi, cs) =>
                    match expectChar ':' cs with
                    | none => none
                    | some cs =>
                      match readDigits 2 0 cs with
                      | none => none
                      | some (sec, cs) =>
                        match expectChar '.' cs with
                        | none => none
                        | some cs =>
                          match readDigits 6 0 cs with
                          | none => none
                          | some (us, cs) =>
                            match cs with
                            | [] => some ⟨y, mo, d, h, mi, sec, us⟩
                            | _ => none

/-- String-level wrapper around `fmtTimestamp`. -/
def fmtTimestampStr (t : Timestamp) : String :=
  ⟨fmtTimestamp t⟩

/-- String-level wrapper around `parseTimestamp`. -/
def parseTimestampStr (s : String) : Option Timestamp :=
  parseTimestamp s.data

/-- A timestamp whose fields fit the fixed widths of the persisted
format.  Every value representable by Python `datetime` (year 1-9999,
month 1-12, day 1-31, hour 0-23, minute 0-59, second 0-59, microsecond
0-999999) satisfies these bounds. -/
def validTs (t : Timestamp) : Bool :=
  decide (t.year < 10 ^ 4) && decide (t.month < 10 ^ 2) && decide (t.day < 10 ^ 2) &&
  decide (t.hour < 10 ^ 2) && decide (t.minute < 10 ^ 2) && decide (t.second < 10 ^ 2) &&
  decide (t.microsecond < 10 ^ 6)

/-- A string is a canonical persisted timestamp: it parses, and
re-rendering the parse gives back the same string. -/
def canonTs (s : String) : Bool :=
  match parseTimestampStr s with
  | some t => fmtTimestampStr t == s
  | none => false

/-- Modelled from the spec: the closed value-encoding enum of the
key-value store's wire types (String, StringSet, Null, Map, plus the
List used for the `enis` sequence), mirroring the typed value wrappers
of the missing `records_table.py`. -/
inductive Attr : Type where
  | s : String → Attr
  | ss : Finset String → Attr
  | null : Attr
  | m : List (String × Attr) → Attr
  | l : List Attr → Attr

/-- Look a key up in a persisted map (first occurrence wins, as in a
Python dict whose keys are unique). -/
def getAttr (fields : List (String × Attr)) (k : String) : Option Attr :=
  match fields with
  | [] => none
  | (k2, v) :: rest => if k2 = k then some v else getAttr rest k

/-- What a `DecodeError` complains about: a required field is missing,
or a field holds a value of the wrong type or form. -/
inductive ErrKind : Type where
  | missing : ErrKind
  | wrongType : ErrKind
  deriving DecidableEq, Repr

/-- Modelled from the spec: the error raised by the missing codec when a
persisted item does not conform to the expected shape; it identifies
the offending field path. -/
structure DecodeError where
  path : List String
  kind : ErrKind
  deriving DecidableEq, Repr

/-- Modelled from the spec: one elastic network interface of a task
(`EniInfo` in the missing `records.py`). -/
structure EniInfo where
  eni_id : String
  public_ipv4 : Option String
  deriving DecidableEq, Repr

/-- Modelled from the spec: one orchestrated task contributing IPs to a
DNS record (`TaskInfo` in the missing `records.py`). -/
structure TaskInfo where
  task_arn : String
  enis : List EniInfo
  stopped_datetime : Option Timestamp
  deriving DecidableEq, Repr

/-- Modelled from the spec: the identity of a record (`DdbRecordKey` in
the missing `records.py`). -/
structure DdbRecordKey where
  hosted_zone_id : String
  record_name : String
  deriving DecidableEq, Repr

/-- Modelled from the spec: the aggregate DNS record (`DdbRecord` in the
missing `records.py`): key, the persisted set of IPv4 addresses, and the
per-task info keyed by task ARN (insertion-ordered, keys unique). -/
structure DdbRecord where
  key : DdbRecordKey
  ipv4s : Finset String
  task_info : List (String × TaskInfo)
  deriving DecidableEq

/-- Modelled from the spec: decoding of a single persisted ENI entry by
the missing `DdbRecordEncoding.decode`; `public_ipv4` is optional. -/
def decodeEni (path : List String) (a : Attr) : Except DecodeError EniInfo :=
  match a with
  | .m fields =>
    match getAttr fields ("eni_id") with
    | some (.s id) =>
      match getAttr fields ("public_ipv4") with
      | some (.s ip) => .ok ⟨id, some ip⟩
      | some _ => .error ⟨path ++ ["public_ipv4"], .wrongType⟩
      | none => .ok ⟨id, none⟩
    | some _ => .error ⟨path ++ ["eni_id"], .wrongType⟩
    | none => .error ⟨path ++ ["eni_id"], .missing⟩
  | _ => .error ⟨path, .wrongType⟩

/-- Decode the ordered sequence of ENI entries of one task. -/
def decodeEnis (path : List String) (xs : List Attr) : Except DecodeError (List EniInfo) :=
  match xs with
  | [] => .ok []
  | a :: rest =>
    match decodeEni path a with
    | .error e => .error e
    | .ok e =>
      match decodeEnis path rest with
      | .error e2 => .error e2
      | .ok es => .ok (e :: es)

/-- Modelled from the spec: decoding of one persisted task entry; the
`enis` sequence is required, the stopped timestamp is optional and, when
present, must be a parseable timestamp string. -/
def decodeTaskBody (arn : String) (a : Attr) :
    Except DecodeError (List EniInfo × Option Timestamp) :=
  match a with
  | .m fields =>
    match getAttr fields ("enis") with
    | some (.l xs) =>
      match decodeEnis ["task_info", arn, "enis"] xs with
      | .error e => .error e
      | .ok enis =>
        match getAttr fields ("stopped_datetime") with
        | none => .ok (enis, none)
        | some (.s ts) =>
          match parseTimestampStr ts with
          | some t => .ok (enis, some t)
          | none => .error ⟨["task_info", arn, "stopped_datetime"], .wrongType⟩
        | some _ => .error ⟨["task_info", arn, "stopped_datetime"], .wrongType⟩
    | some _ => .error ⟨["task_info", arn, "enis"], .wrongType⟩
    | none => .error ⟨["task_info", arn, "enis"], .missing⟩
  | _ => .error ⟨["task_info", arn], .wrongType⟩

/-- Build the `TaskInfo` for a task entry stored under key `arn`: the
map key is the task's ARN. -/
def decodeTask (arn : String) (a : Attr) : Except DecodeError TaskInfo :=
  match decodeTaskBody arn a with
  | .error e => .error e
  | .ok (enis, st) => .ok ⟨arn, enis, st⟩

/-- Decode every task entry of the persisted `task_info` map, in order;
a malformed entry fails the whole decode (nothing is silently dropped). -/
def decodeTasks (entries : List (String × Attr)) :
    Except DecodeError (List (String × TaskInfo)) :=
  match entries with
  | [] => .ok []
  | (arn, a) :: rest =>
    match decodeTask arn a with
    | .error e => .error e
    | .ok t =>
      match decodeTasks rest with
      | .error e2 => .error e2
      | .ok ts => .ok ((arn, t) :: ts)

/-- Require a string-typed field of the item. -/
def requireS (item : List (String × Attr)) (k : String) : Except DecodeError String :=
  match getAttr item k with
  | some (.s v) => .ok v
  | some _ => .error ⟨[k], .wrongType⟩
  | none => .error ⟨[k], .missing⟩

/-- Require a string-set-typed field of the item. -/
def requireSS (item : List (String × Attr)) (k : String) : Except DecodeError (Finset String) :=
  match getAttr item k with
  | some (.ss v) => .ok v
  | some _ => .error ⟨[k], .wrongType⟩
  | none => .error ⟨[k], .missing⟩

/-- Require a map-typed field of the item. -/
def requireM (item : List (String × Attr)) (k : String) :
    Except DecodeError (List (String × Attr)) :=
  match getAttr item k with
  | some (.m v) => .ok v
  | some _ => .error ⟨[k], .wrongType⟩
  | none => .error ⟨[k], .missing⟩

/-- Modelled from the spec: `DdbRecordEncoding.decode` of the missing
`records_table.py` — a persisted item decodes to a fully-populated
`DdbRecord` or fails with a field-identifying `DecodeError`. -/
def decode (item : List (String × Attr)) : Except DecodeError DdbRecord :=
  match requireS item ("hosted_zone_id") with
  | .error e => .error e
  | .ok hz =>
    match requireS item ("record_name") with
    | .error e => .error e
    | .ok rn =>
      match requireSS item ("ipv4s") with
      | .error e => .error e
      | .ok ips =>
        match requireM item ("task_info") with
        | .error e => .error e
        | .ok entries =>
          match decodeTasks entries with
          | .error e => .error e
          | .ok tasks => .ok ⟨⟨hz, rn⟩, ips, tasks⟩

/-- Modelled from the spec: encoding of one ENI; an absent
`public_ipv4` produces no field, not a null. -/
def encodeEni (e : EniInfo) : Attr :=
  .m (("eni_id", .s e.eni_id) ::
    (match e.public_ipv4 with
     | some ip => [("public_ipv4", .s ip)]
     | none => []))

/-- Modelled from the spec: encoding of one task entry; a running task
(no stopped time) produces no `stopped_datetime` field. -/
def encodeTask (t : TaskInfo) : Attr :=
  .m (("enis", .l (t.enis.map encodeEni)) ::
    (match t.stopped_datetime with
     | some ts => [("stopped_datetime", .s (fmtTimestampStr ts))]
     | none => []))

/-- Modelled from the spec: `DdbRecordEncoding.encode` of the missing
`records_table.py` — each task entry is stored under its own
`task_arn`. -/
def encode (r : DdbRecord) : List (String × Attr) :=
  [("hosted_zone_id", .s r.key.hosted_zone_id),
   ("record_name", .s r.key.record_name),
   ("ipv4s", .ss r.ipv4s),
   ("task_info", .m (r.task_info.map fun p => (p.2.task_arn, encodeTask p.2)))]

/-- A persisted ENI entry is well-formed when it has exactly the
expected shape. -/
def wfEni (a : Attr) : Bool :=
  match a with
  | .m [("eni_id", .s _)] => true
  | .m [("eni_id", .s _), ("public_ipv4", .s _)] => true
  | _ => false

/-- A persisted task entry is well-formed when it has exactly the
expected shape and any stopped timestamp is a canonical timestamp
string. -/
def wfTask (a : Attr) : Bool :=
  match a with
  | .m [("enis", .l xs)] => xs.all wfEni
  | .m [("enis", .l xs), ("stopped_datetime", .s ts)] => xs.all wfEni && canonTs ts
  | _ => false

/-- A persisted item is well-formed when it has exactly the expected
shape: the two key fields, the persisted `ipv4s` string set, and a
`task_info` map of well-formed task entries. -/
def wfItem (item : List (String × Attr)) : Bool :=
  match item with
  | [("hosted_zone_id", .s _), ("record_name", .s _), ("ipv4s", .ss _), ("task_info", .m entries)] =>
    entries.all fun p => wfTask p.2
  | _ => false

/-- An in-memory record is valid when every task entry is keyed by its
own ARN and every stopped timestamp fits the persisted format (true of
every Python `datetime`). -/
def validRec (r : DdbRecord) : Bool :=
  r.task_info.all fun p =>
    p.1 == p.2.task_arn &&
      (match p.2.stopped_datetime with
       | some ts => validTs ts
       | none => true)

/-- The set of IPv4 addresses the spec claims is derivable from
`task_info`: every non-absent `public_ipv4` of every ENI of every task.
This follows the spec's words, to be compared with the stored `ipv4s`
field. -/
def specDerivedIpv4s (r : DdbRecord) : Finset String :=
  ((r.task_info.map fun p => p.2.enis).flatten.filterMap fun e => e.public_ipv4).toFinset

/-- Modelled from the spec: the persisted fixture item of the missing
`fixtures/ddb-record.json`, reconstructed from the scenario in the spec
and the assertions of `test_ddb_record_encoding` (hosted zone `FOO`,
record `test.myexample.com`, stored `ipv4s` exactly
`{1.1.2.1, 1.1.2.2}`, task `TASK1_ARN` stopped at
`2020-10-04T23:47:36.322158` with ENI `TASK1_ENI1_ID` at `1.1.1.1`, and
running task `TASK2_ARN` with two ENIs at `1.1.2.1` and `1.1.2.2`). -/
def fixtureItem : List (String × Attr) :=
  [("hosted_zone_id", .s ("FOO")),
   ("record_name", .s ("test.myexample.com")),
   ("ipv4s", .ss {"1.1.2.1", "1.1.2.2"}),
   ("task_info", .m
     [("TASK1_ARN", .m
        [("enis", .l [.m [("eni_id", .s ("TASK1_ENI1_ID")), ("public_ipv4", .s ("1.1.1.1"))]]),
         ("stopped_datetime", .s ("2020-10-04T23:47:36.322158"))]),
      ("TASK2_ARN", .m
        [("enis", .l
           [.m [("eni_id", .s ("TASK2_ENI1_ID")), ("public_ipv4", .s ("1.1.2.1"))],
            .m [("eni_id", .s ("TASK2_ENI2_ID")), ("public_ipv4", .s ("1.1.2.2"))]])])])]

/-- The in-memory record the fixture decodes to, per the assertions of
`test_ddb_record_encoding`. -/
def fixtureRecord : DdbRecord :=
  { key := { hosted_zone_id := "FOO", record_name := "test.myexample.com" }
    ipv4s := {"1.1.2.1", "1.1.2.2"}
    task_info :=
      [("TASK1_ARN",
        { task_arn := "TASK1_ARN"
          enis := [{ eni_id := "TASK1_ENI1_ID", public_ipv4 := some ("1.1.1.1") }]
          stopped_datetime := some ⟨2020, 10, 4, 23, 47, 36, 322158⟩ }),
       ("TASK2_ARN",
        { task_arn := "TASK2_ARN"
          enis := [{ eni_id := "TASK2_ENI1_ID", public_ipv4 := some ("1.1.2.1") },
                   { eni_id := "TASK2_ENI2_ID", public_ipv4 := some ("1.1.2.2") }]
          stopped_datetime := none })] }

/-- One provisioned storage bucket of the scaffolding template, carrying
the construct id it was created with and the read grants issued on it
(principal, objects key pattern). -/
structure S3Bucket where
  construct_id : String
  grants : List (String × String)
  deriving DecidableEq, Repr

/-- `s3.Bucket.grant_read(principal, objects_key_pattern)`: issue one
read grant on the bucket. -/
def S3Bucket.grant_read (b : S3Bucket) (principal pat : String) : S3Bucket :=
  { b with grants := b.grants ++ [(principal, pat)] }

/-- The state of a `HelloConstruct`: its internal `_buckets` list. -/
structure HelloConstruct where
  _buckets : List S3Bucket
  deriving DecidableEq, Repr

/-- `HelloConstruct.__init__(scope, id, num_buckets)`: append one bucket
with construct id `Bucket-{i}` for each `i` in `range(0, num_buckets)`. -/
def helloConstruct (num_buckets : Nat) : HelloConstruct :=
  { _buckets := (List.range num_buckets).map fun i => { construct_id := "Bucket-" ++ toString i, grants := [] } }

/-- The `buckets` property: a snapshot of the internal bucket list
(`tuple(self._buckets)`), in creation order. -/
def HelloConstruct.buckets (c : HelloConstruct) : List S3Bucket :=
  c._buckets

/-- `HelloConstruct.grant_read(principal)`: call `grant_read(principal,
"*")` on every bucket of the `buckets` snapshot. -/
def HelloConstruct.grant_read (c : HelloConstruct) (principal : String) : HelloConstruct :=
  { _buckets := c.buckets.map fun b => b.grant_read principal ("*") }

theorem digitChar_isDigit {d : Nat} (h : d < 10) : (Nat.digitChar d).isDigit = true := by
  interval_cases d <;> decide

theorem digitChar_toNat {d : Nat} (h : d < 10) : (Nat.digitChar d).toNat - 48 = d := by
  interval_cases d <;> decide

theorem readDigits_natToDigits (w : Nat) :
    ∀ (acc n : Nat) (rest : List Char), n < 10 ^ w →
      readDigits w acc (natToDigits w n ++ rest) = some (acc * 10 ^ w + n, rest) := by
  induction w with
  | zero =>
      intro acc n rest h
      interval_cases n
      simp [natToDigits, readDigits]
  | succ w ih =>
      intro acc n rest h
      have hd : n / 10 ^ w < 10 := by
        apply Nat.div_lt_of_lt_mul
        calc n < 10 ^ (w + 1) := h
        _ = 10 ^ w * 10 := by rw [pow_succ]
      have hm : n % 10 ^ w < 10 ^ w := Nat.mod_lt _ (pow_pos (by omega) w)
      simp only [natToDigits, List.cons_append, readDigits, digitChar_isDigit hd, if_true,
        digitChar_toNat hd]
      have key : (acc * 10 + n / 10 ^ w) * 10 ^ w + n % 10 ^ w = acc * 10 ^ (w + 1) + n := by
        have hdm : 10 ^ w * (n / 10 ^ w) + n % 10 ^ w = n := Nat.div_add_mod n (10 ^ w)
        calc (acc * 10 + n / 10 ^ w) * 10 ^ w + n % 10 ^ w
            = acc * (10 ^ w * 10) + (10 ^ w * (n / 10 ^ w) + n % 10 ^ w) := by ring
          _ = acc * 10 ^ (w + 1) + n := by rw [hdm, pow_succ]
      have step := ih (acc * 10 + n / 10 ^ w) (n % 10 ^ w) rest hm
      rw [key] at step
      exact step

theorem readDigits_natToDigits0 (w n : Nat) (rest : List Char) (h : n < 10 ^ w) :
    readDigits w 0 (natToDigits w n ++ rest) = some (n, rest) := by
  rw [readDigits_natToDigits w 0 n rest h]
  simp

theorem expectChar_cons (c : Char) (cs : List Char) : expectChar c (c :: cs) = some cs := by
  simp [expectChar]

theorem parseTimestamp_fmt (t : Timestamp) (h : validTs t = true) :
    parseTimestamp (fmtTimestamp t) = some t := by
  simp only [validTs, Bool.and_eq_true, decide_eq_true_eq] at h
  obtain ⟨⟨⟨⟨⟨⟨hy, hmo⟩, hd⟩, hh⟩, hmi⟩, hs⟩, hus⟩ := h
  simp only [fmtTimestamp, parseTimestamp]
  rw [readDigits_natToDigits0 4 t.year _ hy]
  simp only [expectChar_cons]
  rw [readDigits_natToDigits0 2 t.month _ hmo]
  simp only [expectChar_cons]
  rw [readDigits_natToDigits0 2 t.day _ hd]
  simp only [expectChar_cons]
  rw [readDigits_natToDigits0 2 t.hour _ hh]
  simp only [expectChar_cons]
  rw [readDigits_natToDigits0 2 t.minute _ hmi]
  simp only [expectChar_cons]
  rw [readDigits_natToDigits0 2 t.second _ hs]
  simp only [expectChar_cons]
  rw [show natToDigits 6 t.microsecond = natToDigits 6 t.microsecond ++ [] from
    (List.append_nil _).symm]
  rw [readDigits_natToDigits0 6 t.microsecond [] hus]

theorem parseTimestampStr_fmt (t : Timestamp) (h : validTs t = true) :
    parseTimestampStr (fmtTimestampStr t) = some t := by
  simpa [parseTimestampStr, fmtTimestampStr] using parseTimestamp_fmt t h

theorem canonTs_spec (s : String) (h : canonTs s = true) :
    ∃ t, parseTimestampStr s = some t ∧ fmtTimestampStr t = s := by
  unfold canonTs at h
  cases hp : parseTimestampStr s with
  | none => rw [hp] at h; cases h
  | some t =>
      rw [hp] at h
      exact ⟨t, rfl, by simpa using h⟩

theorem decodeTask_noStopped (arn : String) (xs : List Attr) (enis : List EniInfo)
    (h : decodeEnis ["task_info", arn, "enis"] xs = Except.ok enis) :
    decodeTask arn (Attr.m [("enis", Attr.l xs)]) = Except.ok ⟨arn, enis, none⟩ := by
  unfold decodeTask decodeTaskBody
  simp only []
  rw [show getAttr [("enis", Attr.l xs)] ("enis") = some (Attr.l xs) from rfl]
  simp only []
  rw [h]
  rfl

theorem decodeTask_withStopped (arn : String) (xs : List Attr) (enis : List EniInfo)
    (s : String) (t0 : Timestamp)
    (hx : decodeEnis ["task_info", arn, "enis"] xs = Except.ok enis)
    (hp : parseTimestampStr s = some t0) :
    decodeTask arn (Attr.m [("enis", Attr.l xs), ("stopped_datetime", Attr.s s)]) =
      Except.ok ⟨arn, enis, some t0⟩ := by
  unfold decodeTask decodeTaskBody
  simp only []
  rw [show getAttr [("enis", Attr.l xs), ("stopped_datetime", Attr.s s)] ("enis") =
    some (Attr.l xs) from rfl]
  simp only []
  rw [hx]
  simp only []
  rw [show getAttr [("enis", Attr.l xs), ("stopped_datetime", Attr.s s)] ("stopped_datetime") =
    some (Attr.s s) from rfl]
  simp only []
  rw [hp]

theorem wfEni_spec (path : List String) (a : Attr) (h : wfEni a = true) :
    ∃ e, decodeEni path a = Except.ok e ∧ encodeEni e = a := by
  rw [wfEni.eq_def] at h
  split at h
  case _ x => exact ⟨⟨x, none⟩, rfl, rfl⟩
  case _ x y => exact ⟨⟨x, some y⟩, rfl, rfl⟩
  case _ => cases h

theorem wfEnis_spec (path : List String) (xs : List Attr) (h : xs.all wfEni = true) :
    ∃ es, decodeEnis path xs = Except.ok es ∧ es.map encodeEni = xs := by
  induction xs with
  | nil => exact ⟨[], rfl, rfl⟩
  | cons a rest ih =>
      rw [List.all_cons, Bool.and_eq_true] at h
      obtain ⟨e, he, hea⟩ := wfEni_spec path a h.1
      obtain ⟨es, hes, hmap⟩ := ih h.2
      refine ⟨e :: es, ?_, ?_⟩
      · simp only [decodeEnis]
        rw [he, hes]
      · simp only [List.map_cons, hea, hmap]

theorem wfTask_spec (arn : String) (a : Attr) (h : wfTask a = true) :
    ∃ t, decodeTask arn a = Except.ok t ∧ t.task_arn = arn ∧ encodeTask t = a := by
  rw [wfTask.eq_def] at h
  split at h
  case _ xs =>
      obtain ⟨es, hes, hmap⟩ := wfEnis_spec ["task_info", arn, "enis"] xs h
      refine ⟨⟨arn, es, none⟩, decodeTask_noStopped arn xs es hes, rfl, ?_⟩
      simp only [encodeTask, hmap]
  case _ xs ts =>
      rw [Bool.and_eq_true] at h
      obtain ⟨es, hes, hmap⟩ := wfEnis_spec ["task_info", arn, "enis"] xs h.1
      obtain ⟨t0, hparse, hfmt⟩ := canonTs_spec ts h.2
      refine ⟨⟨arn, es, some t0⟩, decodeTask_withStopped arn xs es ts t0 hes hparse, rfl, ?_⟩
      simp only [encodeTask, hmap, hfmt]
  case _ => cases h

theorem wfTasks_spec (entries : List (String × Attr))
    (h : (entries.all fun p => wfTask p.2) = true) :
    ∃ ts, decodeTasks entries = Except.ok ts ∧
      (ts.map fun p => (p.2.task_arn, encodeTask p.2)) = entries := by
  induction entries with
  | nil => exact ⟨[], rfl, rfl⟩
  | cons p rest ih =>
      obtain ⟨arn, a⟩ := p
      rw [List.all_cons, Bool.and_eq_true] at h
      obtain ⟨t, ht, harn, henc⟩ := wfTask_spec arn a h.1
      obtain ⟨ts, hts, hmap⟩ := ih h.2
      refine ⟨(arn, t) :: ts, ?_, ?_⟩
      · simp only [decodeTasks]
        rw [ht, hts]
      · simp only [List.map_cons, hmap, harn, henc]

theorem decodeEni_encodeEni (path : List String) (e : EniInfo) :
    decodeEni path (encodeEni e) = Except.ok e := by
  obtain ⟨id, ip⟩ := e
  cases ip with
  | none => rfl
  | some v => rfl

theorem decodeEnis_map (path : List String) (es : List EniInfo) :
    decodeEnis path (es.map encodeEni) = Except.ok es := by
  induction es with
  | nil => rfl
  | cons e rest ih =>
      simp only [List.map_cons, decodeEnis]
      rw [decodeEni_encodeEni, ih]

theorem decodeTask_encodeTask (t : TaskInfo)
    (h : ∀ ts, t.stopped_datetime = some ts → validTs ts = true) :
    decodeTask t.task_arn (encodeTask t) = Except.ok t := by
  obtain ⟨arn, enis, st⟩ := t
  cases st with
  | none =>
      exact decodeTask_noStopped arn (enis.map encodeEni) enis
        (decodeEnis_map ["task_info", arn, "enis"] enis)
  | some ts0 =>
      exact decodeTask_withStopped arn (enis.map encodeEni) enis (fmtTimestampStr ts0) ts0
        (decodeEnis_map ["task_info", arn, "enis"] enis)
        (parseTimestampStr_fmt ts0 (h ts0 rfl))

theorem decodeTasks_map (l : List (String × TaskInfo))
    (h : ∀ p ∈ l, p.1 = p.2.task_arn ∧
      ∀ ts, p.2.stopped_datetime = some ts → validTs ts = true) :
    decodeTasks (l.map fun p => (p.2.task_arn, encodeTask p.2)) = Except.ok l := by
  induction l with
  | nil => rfl
  | cons p rest ih =>
      obtain ⟨arn, t⟩ := p
      have hp := h (arn, t) (List.mem_cons_self _ _)
      have hrest := fun q hq => h q (List.mem_cons_of_mem _ hq)
      have hp1 : arn = t.task_arn := hp.1
      simp only [List.map_cons, decodeTasks]
      rw [decodeTask_encodeTask t hp.2, ih hrest]
      simp only []
      rw [← hp1]

theorem validRec_spec (r : DdbRecord) (h : validRec r = true) :
    ∀ p ∈ r.task_info, p.1 = p.2.task_arn ∧
      ∀ ts, p.2.stopped_datetime = some ts → validTs ts = true := by
  rw [validRec, List.all_eq_true] at h
  intro p hp
  have h2 := h p hp
  rw [Bool.and_eq_true, beq_iff_eq] at h2
  refine ⟨h2.1, ?_⟩
  intro ts hts
  have h3 := h2.2
  simp only [hts] at h3
  exact h3

/-- Claim C5: for every valid in-memory DnsRecord `r`, decoding its
encoding gives back `r` field-for-field: `decode (encode r) = ok r`. -/
theorem decode_encode_roundtrip (r : DdbRecord) (h : validRec r = true) :
    decode (encode r) = Except.ok r := by
  have hspec := validRec_spec r h
  obtain ⟨⟨hz, rn⟩, ips, tasks⟩ := r
  unfold decode encode
  simp only []
  rw [show requireS
    [("hosted_zone_id", Attr.s hz), ("record_name", Attr.s rn), ("ipv4s", Attr.ss ips),
     ("task_info", Attr.m (tasks.map fun p => (p.2.task_arn, encodeTask p.2)))]
    ("hosted_zone_id") = Except.ok hz from rfl]
  simp only []
  rw [show requireS
    [("hosted_zone_id", Attr.s hz), ("record_name", Attr.s rn), ("ipv4s", Attr.ss ips),
     ("task_info", Attr.m (tasks.map fun p => (p.2.task_arn, encodeTask p.2)))]
    ("record_name") = Except.ok rn from rfl]
  simp only []
  rw [show requireSS
    [("hosted_zone_id", Attr.s hz), ("record_name", Attr.s rn), ("ipv4s", Attr.ss ips),
     ("task_info", Attr.m (tasks.map fun p => (p.2.task_arn, encodeTask p.2)))]
    ("ipv4s") = Except.ok ips from rfl]
  simp only []
  rw [show requireM
    [("hosted_zone_id", Attr.s hz), ("record_name", Attr.s rn), ("ipv4s", Attr.ss ips),
     ("task_info", Attr.m (tasks.map fun p => (p.2.task_arn, encodeTask p.2)))]
    ("task_info") = Except.ok (tasks.map fun p => (p.2.task_arn, encodeTask p.2)) from rfl]
  simp only []
  rw [decodeTasks_map tasks hspec]

/-- Claim C1: for every well-formed persisted item `x`, encoding the
result of decoding `x` reproduces `x` exactly: `encode (decode x) = x`. -/
theorem encode_decode_roundtrip (item : List (String × Attr)) (h : wfItem item = true) :
    ∃ r, decode item = Except.ok r ∧ encode r = item := by
  rw [wfItem.eq_def] at h
  split at h
  case _ hz rn ips entries =>
      obtain ⟨ts, hts, hmap⟩ := wfTasks_spec entries h
      refine ⟨⟨⟨hz, rn⟩, ips, ts⟩, ?_, ?_⟩
      · unfold decode
        rw [show requireS
          [("hosted_zone_id", Attr.s hz), ("record_name", Attr.s rn), ("ipv4s", Attr.ss ips),
           ("task_info", Attr.m entries)] ("hosted_zone_id") = Except.ok hz from rfl]
        simp only []
        rw [show requireS
          [("hosted_zone_id", Attr.s hz), ("record_name", Attr.s rn), ("ipv4s", Attr.ss ips),
           ("task_info", Attr.m entries)] ("record_name") = Except.ok rn from rfl]
        simp only []
        rw [show requireSS
          [("hosted_zone_id", Attr.s hz), ("record_name", Attr.s rn), ("ipv4s", Attr.ss ips),
           ("task_info", Attr.m entries)] ("ipv4s") = Except.ok ips from rfl]
        simp only []
        rw [show requireM
          [("hosted_zone_id", Attr.s hz), ("record_name", Attr.s rn), ("ipv4s", Attr.ss ips),
           ("task_info", Attr.m entries)] ("task_info") = Except.ok entries from rfl]
        simp only []
        rw [hts]
      · simp only [encode, hmap]
  case _ => cases h

theorem decodeTask_arn (arn : String) (a : Attr) (t : TaskInfo)
    (h : decodeTask arn a = Except.ok t) : t.task_arn = arn := by
  unfold decodeTask at h
  cases hb : decodeTaskBody arn a with
  | error e => rw [hb] at h; cases h
  | ok p =>
      obtain ⟨enis, st⟩ := p
      rw [hb] at h
      simp only [] at h
      injection h with h2
      rw [← h2]

theorem decodeTasks_keys (entries : List (String × Attr)) (ts : List (String × TaskInfo))
    (h : decodeTasks entries = Except.ok ts) : ts.map Prod.fst = entries.map Prod.fst := by
  induction entries generalizing ts with
  | nil =>
      simp only [decodeTasks] at h
      injection h with h2
      rw [← h2]
      rfl
  | cons p rest ih =>
      obtain ⟨arn, a⟩ := p
      simp only [decodeTasks] at h
      cases h1 : decodeTask arn a with
      | error e => rw [h1] at h; cases h
      | ok t =>
          rw [h1] at h
          simp only [] at h
          cases h2 : decodeTasks rest with
          | error e => rw [h2] at h; cases h
          | ok ts2 =>
              rw [h2] at h
              simp only [] at h
              injection h with h3
              rw [← h3]
              simp only [List.map_cons]
              rw [ih ts2 h2]

theorem decodeTasks_arns (entries : List (String × Attr)) (ts : List (String × TaskInfo))
    (h : decodeTasks entries = Except.ok ts) : ∀ p ∈ ts, p.1 = p.2.task_arn := by
  induction entries generalizing ts with
  | nil =>
      simp only [decodeTasks] at h
      injection h with h2
      rw [← h2]
      intro p hp
      cases hp
  | cons q rest ih =>
      obtain ⟨arn, a⟩ := q
      simp only [decodeTasks] at h
      cases h1 : decodeTask arn a with
      | error e => rw [h1] at h; cases h
      | ok t =>
          rw [h1] at h
          simp only [] at h
          cases h2 : decodeTasks rest with
          | error e => rw [h2] at h; cases h
          | ok ts2 =>
              rw [h2] at h
              simp only [] at h
              injection h with h3
              rw [← h3]
              intro p hp
              rcases List.mem_cons.mp hp with hhead | htail
              · rw [hhead]
                exact (decodeTask_arn arn a t h1).symm
              · exact ih ts2 h2 p htail

theorem decode_ok_parts (item : List (String × Attr)) (r : DdbRecord)
    (h : decode item = Except.ok r) :
    ∃ entries,
      getAttr item ("ipv4s") = some (Attr.ss r.ipv4s) ∧
      requireM item ("task_info") = Except.ok entries ∧
      decodeTasks entries = Except.ok r.task_info := by
  unfold decode at h
  cases c1 : requireS item ("hosted_zone_id") with
  | error e => rw [c1] at h; cases h
  | ok hz =>
  rw [c1] at h
  simp only [] at h
  cases c2 : requireS item ("record_name") with
  | error e => rw [c2] at h; cases h
  | ok rn =>
  rw [c2] at h
  simp only [] at h
  cases c3 : requireSS item ("ipv4s") with
  | error e => rw [c3] at h; cases h
  | ok ips =>
  rw [c3] at h
  simp only [] at h
  cases c4 : requireM item ("task_info") with
  | error e => rw [c4] at h; cases h
  | ok entries =>
  rw [c4] at h
  simp only [] at h
  cases c5 : decodeTasks entries with
  | error e => rw [c5] at h; cases h
  | ok tasks =>
  rw [c5] at h
  simp only [] at h
  injection h with h2
  refine ⟨entries, ?_, rfl, ?_⟩
  · unfold requireSS at c3
    cases hg : getAttr item ("ipv4s") with
    | none => rw [hg] at c3; cases c3
    | some v =>
        rw [hg] at c3
        cases v with
        | ss ips2 =>
            simp only [] at c3
            injection c3 with c3e
            rw [← h2, c3e]
        | s x => cases c3
        | null => cases c3
        | m x => cases c3
        | l x => cases c3
  · rw [← h2]
    exact c5

theorem requireS_missing (item : List (String × Attr)) (k : String)
    (h : getAttr item k = none) :
    requireS item k = Except.error ⟨[k], ErrKind.missing⟩ := by
  unfold requireS
  rw [h]

theorem decodeTaskBody_stopped (arn : String) (fields : List (String × Attr))
    (res : List EniInfo × Option Timestamp)
    (h : decodeTaskBody arn (Attr.m fields) = Except.ok res) :
    (getAttr fields ("stopped_datetime") = none → res.2 = none) ∧
    (∀ s, getAttr fields ("stopped_datetime") = some (Attr.s s) →
       ∃ t, parseTimestampStr s = some t ∧ res.2 = some t) := by
  unfold decodeTaskBody at h
  simp only [] at h
  cases hx : getAttr fields ("enis") with
  | none => rw [hx] at h; cases h
  | some v =>
      rw [hx] at h
      cases v with
      | l xs =>
          simp only [] at h
          cases he : decodeEnis ["task_info", arn, "enis"] xs with
          | error e => rw [he] at h; cases h
          | ok enis =>
              rw [he] at h
              simp only [] at h
              constructor
              · intro hg
                rw [hg] at h
                simp only [] at h
                injection h with h2
                rw [← h2]
              · intro s hg
                rw [hg] at h
                simp only [] at h
                cases hp : parseTimestampStr s with
                | none => rw [hp] at h; cases h
                | some t =>
                    rw [hp] at h
                    simp only [] at h
                    injection h with h2
                    exact ⟨t, rfl, by rw [← h2]⟩
      | s x => simp only [] at h; cases h
      | ss x => simp only [] at h; cases h
      | null => simp only [] at h; cases h
      | m x => simp only [] at h; cases h

theorem decodeTask_stopped (arn : String) (fields : List (String × Attr)) (info : TaskInfo)
    (h : decodeTask arn (Attr.m fields) = Except.ok info) :
    (getAttr fields ("stopped_datetime") = none → info.stopped_datetime = none) ∧
    (∀ s, getAttr fields ("stopped_datetime") = some (Attr.s s) →
       ∃ t, parseTimestampStr s = some t ∧ info.stopped_datetime = some t) := by
  unfold decodeTask at h
  cases hb : decodeTaskBody arn (Attr.m fields) with
  | error e => rw [hb] at h; cases h
  | ok p =>
      rw [hb] at h
      obtain ⟨enis, st⟩ := p
      simp only [] at h
      injection h with h2
      have hres := decodeTaskBody_stopped arn fields (enis, st) hb
      rw [← h2]
      exact hres

/-- Witness for claim C1: the fixture item is well-formed and
round-trips through decode and encode. -/
theorem encode_decode_roundtrip_witness :
    wfItem fixtureItem = true ∧
    ∃ r, decode fixtureItem = Except.ok r ∧ encode r = fixtureItem :=
  ⟨rfl, encode_decode_roundtrip fixtureItem rfl⟩

/-- Witness for claim C5: the fixture record is valid and decoding its
encoding gives it back. -/
theorem decode_encode_roundtrip_witness :
    validRec fixtureRecord = true ∧
    decode (encode fixtureRecord) = Except.ok fixtureRecord :=
  ⟨rfl, decode_encode_roundtrip fixtureRecord rfl⟩

/-- Claim C2, counterexample: the fixture decodes successfully, but the
decoded `ipv4s` set is not `{1.1.1.1, 1.1.2.1, 1.1.2.2}` as the claim
states — the source test asserts that sorted ipv4s equals the two-element
list [1.1.2.1, 1.1.2.2], without the address of the stopped task. -/
theorem fixture_ipv4s_counterexample :
    decode fixtureItem = Except.ok fixtureRecord ∧
    fixtureRecord.ipv4s ≠ ({"1.1.1.1", "1.1.2.1", "1.1.2.2"} : Finset String) :=
  ⟨rfl, by decide⟩

/-- Claim C2 (amended): decoding the fixture yields hosted zone `FOO`,
record name `test.myexample.com`, `ipv4s = {1.1.2.1, 1.1.2.2}`, exactly
the two expected TaskInfo values, and re-encoding reproduces the item
exactly. -/
theorem fixture_scenario :
    decode fixtureItem = Except.ok fixtureRecord ∧
    fixtureRecord.key.hosted_zone_id = "FOO" ∧
    fixtureRecord.key.record_name = "test.myexample.com" ∧
    fixtureRecord.ipv4s = ({"1.1.2.1", "1.1.2.2"} : Finset String) ∧
    fixtureRecord.task_info =
      [("TASK1_ARN", ⟨"TASK1_ARN", [⟨"TASK1_ENI1_ID", some ("1.1.1.1")⟩],
         some ⟨2020, 10, 4, 23, 47, 36, 322158⟩⟩),
       ("TASK2_ARN", ⟨"TASK2_ARN", [⟨"TASK2_ENI1_ID", some ("1.1.2.1")⟩,
         ⟨"TASK2_ENI2_ID", some ("1.1.2.2")⟩], none⟩)] ∧
    encode fixtureRecord = fixtureItem :=
  ⟨rfl, rfl, rfl, rfl, rfl, rfl⟩

/-- Claim C3, counterexample: for the decoded fixture record, the stored
`ipv4s` differs from the set of all non-absent `public_ipv4` values of
`task_info` (the stopped task's `1.1.1.1` is reachable from `task_info`
but absent from `ipv4s`). -/
theorem ipv4s_derived_counterexample :
    decode fixtureItem = Except.ok fixtureRecord ∧
    specDerivedIpv4s fixtureRecord = ({"1.1.1.1", "1.1.2.1", "1.1.2.2"} : Finset String) ∧
    fixtureRecord.ipv4s ≠ specDerivedIpv4s fixtureRecord :=
  ⟨rfl, by decide, by decide⟩

/-- Claim C3 (amended): `ipv4s` is an independently stored field, not a
set derived from `task_info`: decode reads it verbatim from the item's
`ipv4s` attribute and encode writes it back unchanged. -/
theorem ipv4s_stored_field (item : List (String × Attr)) (r : DdbRecord)
    (h : decode item = Except.ok r) :
    getAttr item ("ipv4s") = some (Attr.ss r.ipv4s) ∧
    getAttr (encode r) ("ipv4s") = some (Attr.ss r.ipv4s) := by
  obtain ⟨entries, hip, hm, htasks⟩ := decode_ok_parts item r h
  exact ⟨hip, rfl⟩

/-- Witness for claim C3 (amended), at the fixture. -/
theorem ipv4s_stored_field_witness :
    getAttr fixtureItem ("ipv4s") = some (Attr.ss fixtureRecord.ipv4s) ∧
    getAttr (encode fixtureRecord) ("ipv4s") = some (Attr.ss fixtureRecord.ipv4s) :=
  ipv4s_stored_field fixtureItem fixtureRecord rfl

/-- Claim C4: a task entry whose `stopped_datetime` field is absent
decodes to `stopped_datetime = none` — and still decodes successfully
when its `enis` decode — while an entry carrying a stopped-timestamp
string decodes to exactly the parsed timestamp; parsing loses nothing,
since parsing the rendering of any representable timestamp (microsecond
field included) returns it unchanged. -/
theorem timestamp_fidelity :
    (∀ arn fields info, decodeTask arn (Attr.m fields) = Except.ok info →
       getAttr fields ("stopped_datetime") = none → info.stopped_datetime = none) ∧
    (∀ arn fields info s, decodeTask arn (Attr.m fields) = Except.ok info →
       getAttr fields ("stopped_datetime") = some (Attr.s s) →
       ∃ t, parseTimestampStr s = some t ∧ info.stopped_datetime = some t) ∧
    (∀ arn xs enis, decodeEnis ["task_info", arn, "enis"] xs = Except.ok enis →
       decodeTask arn (Attr.m [("enis", Attr.l xs)]) = Except.ok ⟨arn, enis, none⟩) ∧
    (∀ t, validTs t = true → parseTimestampStr (fmtTimestampStr t) = some t) :=
  ⟨fun arn fields info h hg => (decodeTask_stopped arn fields info h).1 hg,
   fun arn fields info s h hg => (decodeTask_stopped arn fields info h).2 s hg,
   decodeTask_noStopped,
   parseTimestampStr_fmt⟩

/-- Witness for claim C4: instantiated at the fixture's stopped task and
its timestamp. -/
theorem timestamp_fidelity_witness :
    (∃ t, parseTimestampStr ("2020-10-04T23:47:36.322158") = some t ∧
       (TaskInfo.mk ("TASK1_ARN") [⟨"TASK1_ENI1_ID", some ("1.1.1.1")⟩]
         (some ⟨2020, 10, 4, 23, 47, 36, 322158⟩)).stopped_datetime = some t) ∧
    parseTimestampStr (fmtTimestampStr ⟨2020, 10, 4, 23, 47, 36, 322158⟩) =
      some ⟨2020, 10, 4, 23, 47, 36, 322158⟩ :=
  ⟨timestamp_fidelity.2.1 ("TASK1_ARN")
     [("enis", Attr.l [Attr.m [("eni_id", Attr.s ("TASK1_ENI1_ID")),
        ("public_ipv4", Attr.s ("1.1.1.1"))]]),
      ("stopped_datetime", Attr.s ("2020-10-04T23:47:36.322158"))]
     (TaskInfo.mk ("TASK1_ARN") [⟨"TASK1_ENI1_ID", some ("1.1.1.1")⟩]
       (some ⟨2020, 10, 4, 23, 47, 36, 322158⟩))
     "2020-10-04T23:47:36.322158" rfl rfl,
   timestamp_fidelity.2.2.2 ⟨2020, 10, 4, 23, 47, 36, 322158⟩ (by decide)⟩

/-- Claim C6: an item missing the `record_name` key fails decode with a
`DecodeError` (which always identifies a field path); when the other key
field is present, the error names exactly `record_name`; and decoding
never silently drops task entries — a successful decode keeps every
entry's key, in order. -/
theorem missing_record_name_errors :
    (∀ item, getAttr item ("record_name") = none →
       (∃ e, decode item = Except.error e) ∧
       (∀ hz, getAttr item ("hosted_zone_id") = some (Attr.s hz) →
          decode item = Except.error ⟨["record_name"], ErrKind.missing⟩)) ∧
    (∀ entries ts, decodeTasks entries = Except.ok ts →
       ts.map Prod.fst = entries.map Prod.fst) := by
  constructor
  · intro item hmiss
    constructor
    · unfold decode
      cases c1 : requireS item ("hosted_zone_id") with
      | error e => exact ⟨e, rfl⟩
      | ok hz =>
          rw [requireS_missing item ("record_name") hmiss]
          exact ⟨⟨["record_name"], ErrKind.missing⟩, rfl⟩
    · intro hz hzget
      unfold decode
      rw [show requireS item ("hosted_zone_id") = Except.ok hz by
        unfold requireS; rw [hzget]]
      rw [requireS_missing item ("record_name") hmiss]
  · exact decodeTasks_keys

/-- Witness for claim C6: the fixture item with its `record_name` entry
removed fails decode with the error naming `record_name`, and the
fixture's successful decode drops no task entry. -/
theorem missing_record_name_errors_witness :
    decode [("hosted_zone_id", Attr.s ("FOO")), ("ipv4s", Attr.ss {"1.1.2.1", "1.1.2.2"})] =
      Except.error ⟨["record_name"], ErrKind.missing⟩ ∧
    [("TASK1_ARN", (TaskInfo.mk ("TASK1_ARN") [⟨"TASK1_ENI1_ID", some ("1.1.1.1")⟩]
        (some ⟨2020, 10, 4, 23, 47, 36, 322158⟩))),
     ("TASK2_ARN", (TaskInfo.mk ("TASK2_ARN") [⟨"TASK2_ENI1_ID", some ("1.1.2.1")⟩,
        ⟨"TASK2_ENI2_ID", some ("1.1.2.2")⟩] none))].map Prod.fst =
      fixtureRecord.task_info.map Prod.fst :=
  ⟨(missing_record_name_errors.1
      [("hosted_zone_id", Attr.s ("FOO")), ("ipv4s", Attr.ss {"1.1.2.1", "1.1.2.2"})]
      rfl).2 ("FOO") rfl,
   by rfl⟩

/-- Claim C7: every record produced by decode keys each `task_info`
entry by that entry's own `task_arn`, and encode stores each task entry
under its own `task_arn`. -/
theorem task_arn_key_invariant :
    (∀ item r, decode item = Except.ok r → ∀ p ∈ r.task_info, p.1 = p.2.task_arn) ∧
    (∀ r, getAttr (encode r) ("task_info") =
       some (Attr.m (r.task_info.map fun p => (p.2.task_arn, encodeTask p.2)))) := by
  constructor
  · intro item r h
    obtain ⟨entries, hip, hm, htasks⟩ := decode_ok_parts item r h
    exact decodeTasks_arns entries r.task_info htasks
  · intro r
    rfl

/-- Witness for claim C7: instantiated at the fixture's first task entry
and at the fixture record's encoding. -/
theorem task_arn_key_invariant_witness :
    (("TASK1_ARN", (TaskInfo.mk ("TASK1_ARN") [⟨"TASK1_ENI1_ID", some ("1.1.1.1")⟩]
        (some ⟨2020, 10, 4, 23, 47, 36, 322158⟩))) : String × TaskInfo).1 =
      (TaskInfo.mk ("TASK1_ARN") [⟨"TASK1_ENI1_ID", some ("1.1.1.1")⟩]
        (some ⟨2020, 10, 4, 23, 47, 36, 322158⟩)).task_arn ∧
    getAttr (encode fixtureRecord) ("task_info") =
      some (Attr.m (fixtureRecord.task_info.map fun p => (p.2.task_arn, encodeTask p.2))) :=
  ⟨task_arn_key_invariant.1 fixtureItem fixtureRecord rfl _ (by decide),
   task_arn_key_invariant.2 fixtureRecord⟩

/-- Claim C9: `HelloConstruct(scope, id, n)` creates exactly `n` buckets
with construct ids `Bucket-0` through `Bucket-{n-1}`, the `buckets`
property returns them in creation order, and for `n = 0` it returns an
empty collection. -/
theorem helloConstruct_buckets_spec (n : Nat) :
    ((helloConstruct n).buckets).length = n ∧
    (∀ i (h : i < ((helloConstruct n).buckets).length),
       (((helloConstruct n).buckets).get ⟨i, h⟩).construct_id = "Bucket-" ++ toString i) ∧
    (helloConstruct 0).buckets = [] := by
  refine ⟨?_, ?_, rfl⟩
  · simp [helloConstruct, HelloConstruct.buckets]
  · intro i h
    simp only [helloConstruct, HelloConstruct.buckets, List.get_eq_getElem,
      List.getElem_map, List.getElem_range]

/-- Witness for claim C9: the second of the three buckets of
`HelloConstruct(_, _, 3)` has construct id `Bucket-1`. -/
theorem helloConstruct_buckets_spec_witness :
    (((helloConstruct 3).buckets).get ⟨1, by decide⟩).construct_id = "Bucket-" ++ toString 1 :=
  (helloConstruct_buckets_spec 3).2.1 1 (by decide)

/-- Claim C10: `grant_read` issues exactly one `grant_read(principal,
"*")` on every bucket of the `buckets` snapshot while leaving the bucket
collection itself (ids, order, count) unchanged; the `buckets` property
is a pure snapshot of the construct state, so the returned value gives
callers no way to alter the collection. -/
theorem grant_read_frame (c : HelloConstruct) (principal : String) :
    ((c.grant_read principal).buckets).map S3Bucket.construct_id =
      (c.buckets).map S3Bucket.construct_id ∧
    ((c.grant_read principal).buckets).map S3Bucket.grants =
      (c.buckets).map (fun b => b.grants ++ [(principal, "*")]) ∧
    (c.grant_read principal).buckets = (c.buckets).map fun b => b.grant_read principal ("*") := by
  refine ⟨?_, ?_, rfl⟩
  · simp only [HelloConstruct.grant_read, HelloConstruct.buckets, List.map_map]
    rfl
  · simp only [HelloConstruct.grant_read, HelloConstruct.buckets, List.map_map]
    rfl

/-- Witness for claim C10: instantiated at a two-bucket construct. -/
theorem grant_read_frame_witness :
    (((helloConstruct 2).grant_read ("alice")).buckets).map S3Bucket.construct_id =
      ((helloConstruct 2).buckets).map S3Bucket.construct_id ∧
    (((helloConstruct 2).grant_read ("alice")).buckets).map S3Bucket.grants =
      ((helloConstruct 2).buckets).map (fun b => b.grants ++ [("alice", "*")]) ∧
    ((helloConstruct 2).grant_read ("alice")).buckets =
      ((helloConstruct 2).buckets).map fun b => b.grant_read ("alice") "*" :=
  grant_read_frame (helloConstruct 2) "alice"
